import Mathlib

/-!
Shallow embedding of the pgwire codec in `src/materialize/pgwire/codec.rs`:
the encoder for `BackendMessage`, the length-prefixed frame parser, and the
three-state resumable decoder for `FrontendMessage`.

Byte buffers are modelled as `List Nat` whose elements are the `u8` values.
`usize`/`u32`/`u16` values are `Nat`; signed values are `Int` with the wire
casts (`as u32`, `put_i32_be`) made explicit via `% 2^w`.  A Rust panic
(slice index out of range / usize underflow) is modelled as an explicit
`panic` outcome so that the functions stay total.
-/

namespace Pgwire

/-- Big-endian `u32` read of the first four bytes of a slice
(`NetworkEndian::read_u32`).  Callers in the source guarantee at least four
bytes; the catch-all is never reached from guarded call sites. -/
def readU32be : List Nat → Nat
  | b0 :: b1 :: b2 :: b3 :: _ => b0 * 16777216 + b1 * 65536 + b2 * 256 + b3
  | _ => 0

/-- Big-endian `u16` read of the first two bytes (`NetworkEndian::read_u16`). -/
def readU16be : List Nat → Nat
  | b0 :: b1 :: _ => b0 * 256 + b1
  | _ => 0

/-- Big-endian `u32` write (`put_u32_be` / `NetworkEndian::write_u32`);
the `% 256` on each byte realises the truncation of `as u32` casts. -/
def u32be (n : Nat) : List Nat :=
  [n / 16777216 % 256, n / 65536 % 256, n / 256 % 256, n % 256]

/-- Big-endian `u16` write (`put_u16_be`). -/
def u16be (n : Nat) : List Nat :=
  [n / 256 % 256, n % 256]

/-- Big-endian `i32` write (`put_i32_be`), two's complement. -/
def i32be (i : Int) : List Nat :=
  u32be (i % 4294967296).toNat

/-- Big-endian `i16` write (`put_i16_be`), two's complement. -/
def i16be (i : Int) : List Nat :=
  u16be (i % 65536).toNat

/-- Whether a byte is a UTF-8 continuation byte (`0x80..=0xBF`). -/
def isCont (b : Nat) : Bool :=
  128 ≤ b && b ≤ 191

/-- UTF-8 validity of a byte sequence, as checked by `std::str::from_utf8`
inside `read_cstr` (Rust standard-library behaviour: shortest-form
encodings only, no surrogates, maximum code point `U+10FFFF`). -/
def utf8Valid : List Nat → Bool
  | [] => true
  | b :: rest =>
    if b ≤ 127 then utf8Valid rest
    else if 194 ≤ b && b ≤ 223 then
      match rest with
      | c1 :: rest1 => isCont c1 && utf8Valid rest1
      | _ => false
    else if b = 224 then
      match rest with
      | c1 :: c2 :: rest2 => (160 ≤ c1 && c1 ≤ 191) && isCont c2 && utf8Valid rest2
      | _ => false
    else if (225 ≤ b && b ≤ 236) || b = 238 || b = 239 then
      match rest with
      | c1 :: c2 :: rest2 => isCont c1 && isCont c2 && utf8Valid rest2
      | _ => false
    else if b = 237 then
      match rest with
      | c1 :: c2 :: rest2 => (128 ≤ c1 && c1 ≤ 159) && isCont c2 && utf8Valid rest2
      | _ => false
    else if b = 240 then
      match rest with
      | c1 :: c2 :: c3 :: rest3 =>
          (144 ≤ c1 && c1 ≤ 191) && isCont c2 && isCont c3 && utf8Valid rest3
      | _ => false
    else if 241 ≤ b && b ≤ 243 then
      match rest with
      | c1 :: c2 :: c3 :: rest3 => isCont c1 && isCont c2 && isCont c3 && utf8Valid rest3
      | _ => false
    else if b = 244 then
      match rest with
      | c1 :: c2 :: c3 :: rest3 =>
          (128 ≤ c1 && c1 ≤ 143) && isCont c2 && isCont c3 && utf8Valid rest3
      | _ => false
    else false

/-- Index of the first zero byte (`slice.iter().position(|b| *b == 0)`). -/
def position0 : List Nat → Option Nat
  | [] => none
  | b :: rest => if b = 0 then some 0 else (position0 rest).map (fun k => k + 1)

/-- Errors surfaced by the decoder (`io::Error` values in the source,
distinguished here by their cause). -/
inductive DecodeErr
  | frameTooBig
  | invalidFrameLength
  | invalidInput
  | unknownMessageType (t : Nat)
deriving DecidableEq, Repr

/-- Frontend messages decoded from the wire
(`crate::pgwire::message::FrontendMessage`; the enum itself lives outside
`src/`, its shape is fixed by the decoder in `codec.rs` and spec §3.2).
`name`/`sql` are the UTF-8 bytes of the decoded strings. -/
inductive FrontendMessage
  | startup (version : Nat)
  | query (query : List Nat)
  | terminate
  | parse (name : List Nat) (sql : List Nat)
      (parameter_data_type_count : Nat) (parameter_data_types : List Nat)
deriving DecidableEq, Repr

/-- `read_cstr(slice, max)`: find the first null; fail `InvalidInput` when
there is none, when its position exceeds `max`, or when the prefix is not
valid UTF-8; otherwise return the bytes before the null and the remainder
after it. -/
def read_cstr (slice : List Nat) (max : Nat) :
    Except DecodeErr (List Nat × List Nat) :=
  match position0 slice with
  | none => .error .invalidInput
  | some pos =>
    if max < pos then .error .invalidInput
    else if utf8Valid (slice.take pos) then
      .ok (slice.take pos, slice.drop (pos + 1))
    else .error .invalidInput

/-- The OID-reading loop of the `'P'` branch: `for _ in 0..count`, breaking
as soon as `offset + 4 >= buf.len()`, pushing `read_u32(&buf[offset..offset+4])`
and stepping `offset` by 4.  Note that `offset` starts at 0, i.e. at the two
count bytes themselves. -/
def readOids (buf : List Nat) : Nat → Nat → List Nat
  | 0, _ => []
  | Nat.succ k, offset =>
    if buf.length ≤ offset + 4 then []
    else readU32be (buf.drop offset) :: readOids buf k (offset + 4)

/-- Result of decoding one message body: a message, an error propagated by
`?`, or a Rust panic (out-of-range slice index / usize underflow). -/
inductive MsgResult
  | ok (m : FrontendMessage)
  | err (e : DecodeErr)
  | panic
deriving DecidableEq, Repr

/-- The `match msg_type` body dispatch of `Codec::decode`'s `Data` arm,
applied to `buf = src.take()` (all bytes of the buffer).  Type bytes:
115 = `s` (synthetic startup), 81 = `Q`, 88 = `X`, 80 = `P`. -/
def decodeMsg (msgType frameLen : Nat) (buf : List Nat) : MsgResult :=
  if msgType = 115 then
    -- NetworkEndian::read_u32(&buf[..4]) panics when buf is shorter than 4
    if buf.length < 4 then .panic
    else .ok (.startup (readU32be buf))
  else if msgType = 81 then
    -- buf.slice_to(frame_len - 1): usize underflow when frame_len = 0,
    -- out-of-range end when frame_len - 1 exceeds buf.len()
    if frameLen = 0 then .panic
    else if buf.length < frameLen - 1 then .panic
    else .ok (.query (buf.take (frameLen - 1)))
  else if msgType = 88 then .ok .terminate
  else if msgType = 80 then
    match read_cstr buf frameLen with
    | .error e => .err e
    | .ok (name, buf1) =>
      match read_cstr buf1 (frameLen - name.length + 1) with
      | .error e => .err e
      | .ok (sql, buf2) =>
        -- NetworkEndian::read_u16(&buf[..2]) panics when fewer than 2 bytes remain
        if buf2.length < 2 then .panic
        else .ok (.parse name sql (readU16be buf2) (readOids buf2 (readU16be buf2) 0))
  else .err (.unknownMessageType msgType)

/-- The decoder state (`DecodeState`): `Startup`, `Head`, `Data(type, len)`. -/
inductive DecodeState
  | startup
  | head
  | data (msgType : Nat) (frameLen : Nat)
deriving DecidableEq, Repr

/-- Overall outcome of one `decode` call: `Ok(None)`, `Ok(Some(msg))`,
`Err(e)`, or a panic. -/
inductive DecodeOut
  | ok (m : Option FrontendMessage)
  | err (e : DecodeErr)
  | panic
deriving DecidableEq, Repr

/-- `parse_frame_len`: big-endian `u32` at the front of the slice, rejected
above `MAX_FRAME_SIZE = 8 << 10` as `FrameTooBig` and below 4 as an invalid
frame length, otherwise reduced by the 4 length bytes. -/
def parse_frame_len (src : List Nat) : Except DecodeErr Nat :=
  let n := readU32be src
  if 8192 < n then .error .frameTooBig
  else if n < 4 then .error .invalidFrameLength
  else .ok (n - 4)

/-- The `Data(msg_type, frame_len)` arm of `Codec::decode`: wait for
`frame_len` bytes, then `src.take()` — which removes every byte of `src`,
not just the frame — decode the body, set the state to `Head` and return
the message.  On an error or panic the state assignment has not happened
yet, so the state stays `Data(..)` while the buffer is already empty. -/
def decodeData (msgType frameLen : Nat) (src : List Nat) :
    DecodeOut × DecodeState × List Nat :=
  if src.length < frameLen then (.ok none, .data msgType frameLen, src)
  else
    match decodeMsg msgType frameLen src with
    | .ok m => (.ok (some m), .head, [])
    | .err e => (.err e, .data msgType frameLen, [])
    | .panic => (.panic, .data msgType frameLen, [])

/-- `Codec::decode`.  The `loop` in the source reaches the `Data` arm after
at most one header step, so it is unrolled: the `Startup`/`Head` arms parse
and consume the header (4 resp. 5 bytes) and fall through to the `Data`
logic; errors from `parse_frame_len` propagate before the buffer is
advanced. -/
def decode (s : DecodeState) (src : List Nat) :
    DecodeOut × DecodeState × List Nat :=
  match s with
  | .startup =>
    if src.length < 4 then (.ok none, .startup, src)
    else
      match parse_frame_len src with
      | .error e => (.err e, .startup, src)
      | .ok frameLen => decodeData 115 frameLen (src.drop 4)
  | .head =>
    if src.length < 5 then (.ok none, .head, src)
    else
      match parse_frame_len (src.drop 1) with
      | .error e => (.err e, .head, src)
      | .ok frameLen => decodeData (src.headD 0) frameLen (src.drop 5)
  | .data msgType frameLen => decodeData msgType frameLen src

/-- Bytes the current state needs before it can make progress: 4 header
bytes in `Startup`, 5 in `Head`, the body length in `Data`. -/
def bytesNeeded : DecodeState → Nat
  | .startup => 4
  | .head => 5
  | .data _ n => n

/-- Repeatedly call `decode` (as `tokio::codec::Framed` does) until it
stops yielding messages, collecting the messages produced.  `fuel` bounds
the iteration; any successful `decode` empties the buffer, so a fuel of
`buffer length + 2` is always sufficient. -/
def drain : Nat → DecodeState → List Nat → List FrontendMessage × DecodeState × List Nat
  | 0, s, b => ([], s, b)
  | Nat.succ fuel, s, b =>
    match decode s b with
    | (.ok (some m), s1, b1) =>
      let r := drain fuel s1 b1
      (m :: r.1, r.2.1, r.2.2)
    | (_, s1, b1) => ([], s1, b1)

/-- Feed a partition of a byte stream, chunk by chunk, to a fresh codec:
append each chunk to the pending buffer and drain all available messages,
exactly as a transport loop drives `decode`. -/
def runPartition (chunks : List (List Nat)) :
    List FrontendMessage × DecodeState × List Nat :=
  chunks.foldl
    (fun acc c =>
      let d := drain (acc.2.2.length + c.length + 2) acc.2.1 (acc.2.2 ++ c)
      (acc.1 ++ d.1, d.2.1, d.2.2))
    ([], .startup, [])

/-- The decoder state after a sequence of `decode` calls on the given
buffers. -/
def decodeCalls (s : DecodeState) (bufs : List (List Nat)) : DecodeState :=
  bufs.foldl (fun st b => (decode st b).2.1) s

/-- ASCII decimal digits of a natural number (the digits Rust's `{}`
formatting of an unsigned value prints). -/
def natDecimal (n : Nat) : List Nat :=
  (Nat.toDigits 10 n).map Char.toNat

/-- ASCII decimal form of a signed integer, leading `-` (45) when
negative, matching Rust's `{}` formatting of `i32`/`i64`. -/
def intDecimal (i : Int) : List Nat :=
  if i < 0 then 45 :: natDecimal i.natAbs else natDecimal i.toNat

/-- Modelled from the spec: `repr::Interval` (§3.3), which lives outside
`src/`.  `Months` carries the signed month count; `Duration` carries the
sign flag and, since the rendering of a `std::time::Duration` is external
library code, the bytes its `{:?}` formatting produces. -/
inductive Interval
  | months (n : Int)
  | duration (is_positive : Bool) (rendered : List Nat)
deriving DecidableEq, Repr

/-- Modelled from the spec: `FieldValue` (§3.3), defined in
`crate::pgwire::message` outside `src/`.  Variants whose textual form is
produced by an external `Display` impl (`Date`, `Timestamp`, `Float4`,
`Float8`, `Numeric`) carry the rendered decimal/textual bytes; the
variants formatted inside `codec.rs` (`Bool`, `Bytea`, `Int4`, `Int8`,
`Interval`, `Text`) carry their values. -/
inductive FieldValue
  | bool (b : Bool)
  | bytea (b : List Nat)
  | date (rendered : List Nat)
  | timestamp (rendered : List Nat)
  | interval (i : Interval)
  | int4 (i : Int)
  | int8 (i : Int)
  | float4 (rendered : List Nat)
  | float8 (rendered : List Nat)
  | numeric (rendered : List Nat)
  | text (s : List Nat)
deriving DecidableEq, Repr

/-- The textual projection of a `DataRow` field value, as built by the
`match f` in the `DataRow` arm of `Codec::encode`. -/
def renderFieldValue : FieldValue → List Nat
  | .bool false => [102]
  | .bool true => [116]
  | .bytea b => b
  | .date r => r
  | .timestamp r => r
  | .interval (.months n) => intDecimal n ++ [32, 109, 111, 110, 116, 104, 115]
  | .interval (.duration pos r) => (if pos then [] else [45]) ++ r
  | .int4 i => intDecimal i
  | .int8 i => intDecimal i
  | .float4 r => r
  | .float8 r => r
  | .numeric r => r
  | .text s => s

/-- Modelled from the spec: a `RowDescription` field descriptor (§3.3),
defined in `crate::pgwire::message` outside `src/`.  `format` is the
numeric value of the `format as u16` cast. -/
structure FieldDescription where
  name : List Nat
  table_id : Nat
  column_id : Nat
  type_oid : Nat
  type_len : Int
  type_mod : Int
  format : Nat
deriving DecidableEq, Repr

/-- Modelled from the spec: `BackendMessage` (§3.3), defined in
`crate::pgwire::message` outside `src/`.  `errorResponse.severity` carries
the bytes of `severity.string()`, whose `Severity` enum is also outside
`src/`. -/
inductive BackendMessage
  | authenticationOk
  | rowDescription (fields : List FieldDescription)
  | dataRow (fields : List (Option FieldValue))
  | commandComplete (tag : List Nat)
  | emptyQueryResponse
  | readyForQuery
  | parameterStatus (name : List Nat) (value : List Nat)
  | parseComplete
  | errorResponse (severity : List Nat) (code : List Nat) (message : List Nat)
      (detail : Option (List Nat))
  | copyOutResponse
  | copyData (data : List Nat)
deriving DecidableEq, Repr

/-- The type byte written first by `Codec::encode`. -/
def typeByte : BackendMessage → Nat
  | .authenticationOk => 82
  | .rowDescription _ => 84
  | .dataRow _ => 68
  | .commandComplete _ => 67
  | .emptyQueryResponse => 73
  | .readyForQuery => 90
  | .parameterStatus _ _ => 83
  | .parseComplete => 49
  | .errorResponse _ _ _ _ => 69
  | .copyOutResponse => 72
  | .copyData _ => 100

/-- One `RowDescription` field as written by the `for f in &fields` loop:
null-terminated name, `u32` table id, `u16` column id, `u32` type oid,
`i16` type len, `i32` type mod, `u16` format. -/
def encodeField (f : FieldDescription) : List Nat :=
  f.name ++ [0] ++ u32be f.table_id ++ u16be f.column_id ++ u32be f.type_oid
    ++ i16be f.type_len ++ i32be f.type_mod ++ u16be f.format

/-- One `DataRow` field: `u32` length then the rendered bytes when
present, `i32 -1` when absent. -/
def encodeDataField : Option FieldValue → List Nat
  | some f => u32be (renderFieldValue f).length ++ renderFieldValue f
  | none => i32be (-1)

/-- The message body written by the `match msg` in `Codec::encode`
(everything after the type byte and the 4-byte length placeholder). -/
def encodeBody : BackendMessage → List Nat
  | .copyOutResponse => [0] ++ i16be 0
  | .copyData d => d
  | .authenticationOk => u32be 0
  | .rowDescription fields => u16be fields.length ++ (fields.map encodeField).flatten
  | .dataRow fields => u16be fields.length ++ (fields.map encodeDataField).flatten
  | .commandComplete tag => tag ++ [0]
  | .parseComplete => []
  | .emptyQueryResponse => []
  | .readyForQuery => [73]
  | .parameterStatus name value => name ++ [0] ++ value ++ [0]
  | .errorResponse severity code message detail =>
    [83] ++ severity ++ [0] ++ [67] ++ code ++ [0] ++ [77] ++ message ++ [0]
      ++ (match detail with
          | some d => [68] ++ d ++ [0]
          | none => []) ++ [0]

/-- `Codec::encode`: type byte, then the length placeholder back-patched
with `(4 + body length) as u32`, then the body; the whole frame is
appended to the destination buffer. -/
def encode (msg : BackendMessage) : List Nat :=
  typeByte msg :: u32be (4 + (encodeBody msg).length) ++ encodeBody msg

end Pgwire

deriving instance DecidableEq for Except

namespace Pgwire

/-- Reading back a big-endian `u32` write recovers the value modulo `2^32`. -/
theorem readU32be_u32be (n : Nat) (rest : List Nat) :
    readU32be (u32be n ++ rest) = n % 4294967296 := by
  simp only [u32be, List.cons_append, List.nil_append, readU32be]
  omega

/-- The `Data` arm never sets the state back to `Startup`. -/
theorem decodeData_snd_ne_startup (t n : Nat) (b : List Nat) :
    (decodeData t n b).2.1 ≠ DecodeState.startup := by
  unfold decodeData
  split
  · simp
  · split <;> simp

/-- A `decode` call entered outside `Startup` never lands in `Startup`. -/
theorem decode_snd_ne_startup (s : DecodeState) (hs : s ≠ .startup) (b : List Nat) :
    (decode s b).2.1 ≠ DecodeState.startup := by
  cases s with
  | startup => exact absurd rfl hs
  | head =>
    simp only [decode]
    split
    · simp
    · split
      · simp
      · exact decodeData_snd_ne_startup _ _ _
  | data t n =>
    simp only [decode]
    exact decodeData_snd_ne_startup t n b

/-- Non-`Startup` states are preserved by any sequence of `decode` calls. -/
theorem decodeCalls_ne_startup (bufs : List (List Nat)) :
    ∀ s : DecodeState, s ≠ .startup → decodeCalls s bufs ≠ .startup := by
  induction bufs with
  | nil => intro s hs; simpa [decodeCalls] using hs
  | cons b bs ih =>
    intro s hs
    have h1 : decodeCalls s (b :: bs) = decodeCalls ((decode s b).2.1) bs := rfl
    rw [h1]
    exact ih _ (decode_snd_ne_startup s hs b)

/-- When the `Data` arm yields a message, the next state is `Head`. -/
theorem decodeData_ok_some_head (t n : Nat) (b : List Nat) (m : FrontendMessage)
    (s1 : DecodeState) (r1 : List Nat)
    (h : decodeData t n b = (.ok (some m), s1, r1)) : s1 = DecodeState.head := by
  unfold decodeData at h
  split at h
  · simp at h
  · split at h <;> simp_all

/-- C1: the claim says a `decode` call returning `Some(message)` advances the
buffer by exactly the decoded frame's bytes, leaving subsequent frames
buffered.  At a buffer holding two pipelined `Terminate` frames, `decode`
returns the first message but leaves an empty buffer — `src.take()` has
discarded the second frame's five bytes — refuting the claim. -/
theorem decode_take_discards_pipelined_frame :
    (decode .head [88, 0, 0, 0, 4, 88, 0, 0, 0, 4]).1 = .ok (some .terminate) ∧
    (decode .head [88, 0, 0, 0, 4, 88, 0, 0, 0, 4]).2.2 ≠
      List.drop 5 [88, 0, 0, 0, 4, 88, 0, 0, 0, 4] := by decide

/-- C2: the claim says decoding a concatenation of valid frames is
invariant under the partition into chunks.  For the stream made of a
startup frame followed by a `Terminate` frame, feeding it whole yields
only the startup message (the buffered `Terminate` frame is discarded by
`src.take()`), while feeding it frame by frame yields both messages —
refuting the claim. -/
theorem chunked_decode_inequivalence :
    (runPartition [[0, 0, 0, 8, 0, 3, 0, 0, 88, 0, 0, 0, 4]]).1 ≠
      (runPartition [[0, 0, 0, 8, 0, 3, 0, 0], [88, 0, 0, 0, 4]]).1 := by decide

/-- C3: on a `'P'` frame with empty name, empty sql, declared count 1 and
the single OID `0x10`, the decoder yields `param_dts = [65536]`: the OID
read starts at offset 0 of the post-string remainder, overlapping the two
count bytes, instead of at the byte after the count (which would give
`[16]` as the claim states). -/
theorem parse_oids_overlap_count :
    decode .head ([80, 0, 0, 0, 12] ++ [0, 0, 0, 1, 0, 0, 0, 16]) =
      (.ok (some (.parse [] [] 1 [65536])), .head, []) := by decide

/-- C4 counterexample: for a `CopyData` body of `2^32` bytes the `as u32`
cast truncates the back-patched length, so the length prefix is 4, not
body bytes + 4, refuting the claim for every `BackendMessage`. -/
theorem encode_len_claim_cex :
    readU32be ((encode (.copyData (List.replicate 4294967296 0))).drop 1) ≠
      (encodeBody (.copyData (List.replicate 4294967296 0))).length + 4 := by
  have hbody : encodeBody (BackendMessage.copyData (List.replicate 4294967296 0))
      = List.replicate 4294967296 0 := rfl
  have hdrop : (encode (BackendMessage.copyData (List.replicate 4294967296 0))).drop 1
      = u32be (4 + (encodeBody (BackendMessage.copyData (List.replicate 4294967296 0))).length)
          ++ encodeBody (BackendMessage.copyData (List.replicate 4294967296 0)) := rfl
  rw [hdrop, readU32be_u32be, hbody, List.length_replicate]
  norm_num

/-- C4 (amended): for every `BackendMessage` whose encoded body plus the
four length bytes fits in a `u32`, the big-endian length prefix equals the
number of body bytes plus 4, and the total bytes appended equal
`1 + length_value`. -/
theorem encode_len_self_consistent (msg : BackendMessage)
    (h : (encodeBody msg).length + 4 < 4294967296) :
    readU32be ((encode msg).drop 1) = (encodeBody msg).length + 4 ∧
    (encode msg).length = 1 + readU32be ((encode msg).drop 1) := by
  have hdrop : (encode msg).drop 1 = u32be (4 + (encodeBody msg).length) ++ encodeBody msg := rfl
  have h2 : readU32be ((encode msg).drop 1) = (encodeBody msg).length + 4 := by
    rw [hdrop, readU32be_u32be]
    omega
  refine ⟨h2, ?_⟩
  rw [h2]
  simp [encode, u32be]
  omega

/-- C4 witness: the amended statement at `AuthenticationOk` — prefix 8,
frame of 9 bytes. -/
theorem encode_len_self_consistent_witness :
    readU32be ((encode .authenticationOk).drop 1) = (encodeBody .authenticationOk).length + 4 ∧
    (encode .authenticationOk).length = 1 + readU32be ((encode .authenticationOk).drop 1) :=
  encode_len_self_consistent .authenticationOk (by decide)

/-- C5: in both header-reading states, a declared length above 8192 is
rejected as `FrameTooBig` and one below 4 as an invalid frame length, with
the state and the buffer left untouched (the buffer is not advanced past —
indeed not even by — the header). -/
theorem decode_rejects_bad_frame_len (src : List Nat) :
    (4 ≤ src.length → 8192 < readU32be src ∨ readU32be src < 4 →
      decode .startup src =
        (.err (if 8192 < readU32be src then .frameTooBig else .invalidFrameLength),
          .startup, src)) ∧
    (5 ≤ src.length → 8192 < readU32be (src.drop 1) ∨ readU32be (src.drop 1) < 4 →
      decode .head src =
        (.err (if 8192 < readU32be (src.drop 1) then .frameTooBig else .invalidFrameLength),
          .head, src)) := by
  constructor
  · intro h4 hL
    have hnot : ¬ src.length < 4 := by omega
    by_cases hbig : 8192 < readU32be src
    · simp [decode, hnot, parse_frame_len, hbig]
    · have hsmall : readU32be src < 4 := by tauto
      simp [decode, hnot, parse_frame_len, hbig, hsmall]
  · intro h5 hL
    have hnot : ¬ src.length < 5 := by omega
    simp only [List.drop_one] at hL ⊢
    by_cases hbig : 8192 < readU32be src.tail
    · simp [decode, hnot, parse_frame_len, hbig]
    · have hsmall : readU32be src.tail < 4 := by tauto
      simp [decode, hnot, parse_frame_len, hbig, hsmall]

/-- C5 witness: the header `00 00 20 01` declares length 8193 and is
rejected as `FrameTooBig` with the buffer unchanged. -/
theorem decode_rejects_bad_frame_len_witness :
    decode .startup [0, 0, 32, 1] = (.err .frameTooBig, .startup, [0, 0, 32, 1]) :=
  ((decode_rejects_bad_frame_len [0, 0, 32, 1]).1 (by decide)
    (Or.inl (by decide))).trans (by decide)

/-- C6: encoding `DataRow [Some(Text("hi")), None]` appends exactly the 17
bytes `44 00 00 00 10 00 02 00 00 00 02 68 69 FF FF FF FF`. -/
theorem encode_datarow_seed :
    encode (.dataRow [some (.text [104, 105]), none]) =
      [68, 0, 0, 0, 16, 0, 2, 0, 0, 0, 2, 104, 105, 255, 255, 255, 255] := by decide

/-- C7 counterexample: `[0xFF, 0x00]` with `max = 5` has its first null at
position 1 ≤ 5, so the claim says the call returns `([0xFF], [])`; the code
instead fails `InvalidInput` because `0xFF` is not valid UTF-8. -/
theorem read_cstr_claim_cex :
    read_cstr [255, 0] 5 = .error .invalidInput ∧
    read_cstr [255, 0] 5 ≠ .ok ([255], []) := by decide

/-- C7 (amended): `read_cstr` fails `InvalidInput` when the slice has no
null byte, or when the first null's position exceeds `max`, or when the
bytes before the null are not valid UTF-8; otherwise it returns the bytes
before the null (null excluded) and the remainder after it. -/
theorem read_cstr_spec_amended (slice : List Nat) (max : Nat) :
    (position0 slice = none → read_cstr slice max = .error .invalidInput) ∧
    (∀ pos, position0 slice = some pos → max < pos →
      read_cstr slice max = .error .invalidInput) ∧
    (∀ pos, position0 slice = some pos → pos ≤ max →
      utf8Valid (slice.take pos) = true →
      read_cstr slice max = .ok (slice.take pos, slice.drop (pos + 1))) ∧
    (∀ pos, position0 slice = some pos → pos ≤ max →
      utf8Valid (slice.take pos) = false →
      read_cstr slice max = .error .invalidInput) := by
  refine ⟨?_, ?_, ?_, ?_⟩
  · intro h; simp [read_cstr, h]
  · intro pos h hmax; simp [read_cstr, h, hmax]
  · intro pos h hmax hval; simp [read_cstr, h, Nat.not_lt.mpr hmax, hval]
  · intro pos h hmax hval; simp [read_cstr, h, Nat.not_lt.mpr hmax, hval]

/-- C7 witness: `read_cstr [97, 0, 98] 3` succeeds with `([97], [98])`. -/
theorem read_cstr_spec_amended_witness :
    read_cstr [97, 0, 98] 3 = .ok ([97], [98]) :=
  ((read_cstr_spec_amended [97, 0, 98] 3).2.2.1 1 (by decide) (by decide)
    (by decide)).trans (by decide)

/-- C8: in every decoder state, when the buffer holds fewer bytes than the
state requires (4 in `Startup`, 5 in `Head`, the body length in `Data`),
`decode` returns `Ok(None)` with the state and the buffer unchanged. -/
theorem decode_insufficient_noop (s : DecodeState) (src : List Nat)
    (h : src.length < bytesNeeded s) : decode s src = (.ok none, s, src) := by
  cases s with
  | startup => simp [bytesNeeded] at h; simp [decode, h]
  | head => simp [bytesNeeded] at h; simp [decode, h]
  | data t n => simp [bytesNeeded] at h; simp [decode, decodeData, h]

/-- C8 witness: one byte in `Head` state is left untouched. -/
theorem decode_insufficient_noop_witness :
    decode .head [88] = (.ok none, .head, [88]) :=
  decode_insufficient_noop .head [88] (by decide)

/-- C9: once a codec in `Startup` has produced a startup frame, no
sequence of subsequent `decode` calls ever returns the decoder to the
`Startup` state. -/
theorem startup_never_reentered (src0 : List Nat) (m : FrontendMessage)
    (s1 : DecodeState) (r1 : List Nat)
    (h : decode .startup src0 = (.ok (some m), s1, r1)) (bufs : List (List Nat)) :
    decodeCalls s1 bufs ≠ .startup := by
  have hs1 : s1 ≠ DecodeState.startup := by
    simp only [decode] at h
    split at h
    · simp at h
    · split at h
      · simp at h
      · have := decodeData_ok_some_head _ _ _ _ _ _ h
        simp [this]
  exact decodeCalls_ne_startup bufs s1 hs1

/-- C9 witness: after decoding the startup frame `00 00 00 08 00 03 00 00`
the codec is in `Head`, and a further call on a `Terminate` frame does not
return it to `Startup`. -/
theorem startup_never_reentered_witness :
    decodeCalls .head [[88, 0, 0, 0, 4]] ≠ .startup :=
  startup_never_reentered [0, 0, 0, 8, 0, 3, 0, 0] (.startup 196608) .head []
    (by decide) [[88, 0, 0, 0, 4]]

/-- C10: decoding a `'Q'` frame with declared length 4 (body length 0)
reaches the panic of `buf.slice_to(frame_len - 1)` — a usize underflow —
instead of an `InvalidInput` error, while every `'Q'` frame with body
length at least 1 decodes to `Query` over the body minus its final byte. -/
theorem query_empty_body_panics :
    decode .head [81, 0, 0, 0, 4] = (.panic, .data 81 0, []) ∧
    ∀ (pre : List Nat) (x : Nat) (rest : List Nat),
      decode (.data 81 (pre.length + 1)) (pre ++ x :: rest) =
        (.ok (some (.query pre)), .head, []) := by
  refine ⟨by decide, ?_⟩
  intro pre x rest
  have hlen : (pre ++ x :: rest).length = pre.length + rest.length + 1 := by
    simp [List.length_append]; omega
  have h1 : ¬ (pre ++ x :: rest).length < pre.length + 1 := by omega
  have h2 : ¬ (pre ++ x :: rest).length < pre.length + 1 - 1 := by omega
  have htake : (pre ++ x :: rest).take (pre.length + 1 - 1) = pre := by
    simp only [Nat.add_sub_cancel]
    exact List.take_left pre (x :: rest)
  simp [decode, decodeData, decodeMsg, h1, h2, htake]

end Pgwire
